import Mathlib

/-!
# CSOCR sequencing engine — shallow embedding

This file embeds the greedy nearest-neighbour ordering loop of
`src/application.py` (`upload`, lines 150–174) and proves the spec's
claims about it.

The Python code, restricted to the part that orders the already
OCR-extracted segments (`generated` is the list of `(div, text)` pairs
built on line 152; OCR itself is an external collaborator):

```python
ordered = [generated[0]]          # IndexError when generated == []
generated.pop(0)
while len(generated) > 0:
    min_dist = int(1e15)
    min_i = -1
    for i in range(len(generated)):
        dist = model.wmdistance(ordered[-1][1].split(), generated[i][1].split())
        if dist < min_dist:
            min_i = i
            min_dist = dist
    ordered.append(generated[min_i])   # min_i == -1 selects the LAST element
    generated.pop(min_i)
```

Modelling decisions:
* a segment is its opaque display element (`identity`) plus its extracted
  text; `tokens` is Python's `str.split()` (split on whitespace runs,
  dropping empty words);
* `model.wmdistance` is an abstract oracle returning an extended
  non-negative value: a finite rational or `+inf` (the value gensim
  returns when no term of either side is in the vocabulary).  Comparison
  `dist < min_dist` is IEEE `<` restricted to these values: any finite
  value is `<` `inf`, and `inf` is `<` nothing;
* Python's negative indexing (`generated[min_i]` / `generated.pop(min_i)`
  with `min_i = -1`) is `pyIndex`;
* the `while` loop is driven by fuel equal to `len(generated)`; each
  iteration removes exactly one element (the selected index is always in
  range, proved in `scanFrom_snd_bound` / `pyIndex_lt_length`), so the
  fuel reaches `0` exactly when `generated` becomes empty, matching the
  loop condition;
* every oracle invocation is logged (argument pair, in call order) and
  the loop iterations are counted, so that claims about the number and
  direction of oracle calls are statable;
* the `IndexError` raised by `generated[0]` on an empty upload list is
  the only failure the code can signal; it is modelled as
  `PyError.indexError`.
-/

namespace CSOCR

/-- Extended distance values returned by `model.wmdistance`: a finite
non-negative float (modelled as a rational) or `+inf`. -/
inductive Dist where
  | fin : ℚ → Dist
  | inf : Dist
deriving DecidableEq, Repr

/-- IEEE `<` on the values `wmdistance` can return (no NaN): finite
values compare as rationals, every finite value is below `inf`, and
`inf < x` is false for every `x`. -/
def Dist.lt : Dist → Dist → Bool
  | .fin a, .fin b => a < b
  | .fin _, .inf => true
  | .inf, _ => false

/-- One comic segment: the opaque display element built by `gen`
(abstracted to a stable identity) together with the text Textract
extracted for it. -/
structure Segment where
  identity : ℕ
  text : String
deriving DecidableEq, Repr, Inhabited

/-- Helper for `pySplit`: walk the characters, accumulating the current
word (reversed); whitespace ends the current word, runs of whitespace
and boundary whitespace produce no empty words. -/
def pySplitAux : List Char → List Char → List String
  | [], cur => if cur.isEmpty then [] else [String.mk cur.reverse]
  | c :: cs, cur =>
      if c.isWhitespace then
        if cur.isEmpty then pySplitAux cs []
        else String.mk cur.reverse :: pySplitAux cs []
      else pySplitAux cs (c :: cur)

/-- Python's `str.split()` with no argument: split on runs of
whitespace, dropping empty words. -/
def pySplit (s : String) : List String :=
  pySplitAux s.data []

/-- The token sequence of a segment, as produced by
`ordered[-1][1].split()` / `generated[i][1].split()`. -/
def Segment.tokens (s : Segment) : List String :=
  pySplit s.text

/-- The distance oracle: `model.wmdistance` on two token sequences. -/
abbrev Oracle := List String → List String → Dist

/-- One logged oracle invocation: the two token sequences passed to
`model.wmdistance`, in argument order. -/
abbrev Call := List String × List String

/-- The sentinel `int(1e15)` that initialises `min_dist`. -/
def sentinel : Dist := .fin 1000000000000000

/-- Python list indexing for the indices this program produces:
a negative index counts from the end of a list of length `n`. -/
def pyIndex (n : ℕ) (i : Int) : ℕ :=
  if i < 0 then ((n : Int) + i).toNat else i.toNat

/-- The inner `for i in range(len(generated))` scan: starting from the
accumulator `(min_dist, min_i)`, compare each candidate's distance from
`lastTokens` with `min_dist` using strict `<` and keep the first
strict improvement.  Also returns the list of oracle invocations made,
in order. -/
def scanFrom (oracle : Oracle) (lastTokens : List String) :
    List Segment → ℕ → Dist × Int → (Dist × Int) × List Call
  | [], _, acc => (acc, [])
  | s :: rest, i, acc =>
      let dist := oracle lastTokens s.tokens
      let acc' := if dist.lt acc.1 then (dist, (i : Int)) else acc
      let r := scanFrom oracle lastTokens rest (i + 1) acc'
      (r.1, (lastTokens, s.tokens) :: r.2)

/-- The `while len(generated) > 0` loop.  The fuel argument equals
`len(generated)` at every call (each iteration pops exactly one
element), so fuel `0` coincides with the loop condition becoming
false.  Returns the `ordered` suffix built by the loop, the logged
oracle invocations, and the number of loop iterations performed. -/
def chainLoop (oracle : Oracle) : ℕ → List Segment → Segment →
    List Segment × List Call × ℕ
  | 0, _, _ => ([], [], 0)
  | _ + 1, [], _ => ([], [], 0)
  | n + 1, g :: gs, last =>
      let r := scanFrom oracle last.tokens (g :: gs) 0 (sentinel, -1)
      let idx := pyIndex (g :: gs).length r.1.2
      let sel := (g :: gs).getD idx g
      let rest := chainLoop oracle n ((g :: gs).eraseIdx idx) sel
      (sel :: rest.1, r.2 ++ rest.2.1, rest.2.2 + 1)

/-- The only failure the Python code can raise in the ordering part:
`generated[0]` on an empty list. -/
inductive PyError where
  | indexError
deriving DecidableEq, Repr

/-- The ordering part of the `upload` callback (lines 153–174),
instrumented: on success returns the ordered segments, the logged
oracle invocations, and the number of `while`-loop iterations. -/
def uploadLog (oracle : Oracle) (generated : List Segment) :
    Except PyError (List Segment × List Call × ℕ) :=
  match generated with
  | [] => .error .indexError
  | s :: rest =>
      let r := chainLoop oracle rest.length rest s
      .ok (s :: r.1, r.2.1, r.2.2)

/-- The ordering part of the `upload` callback: the resulting order of
the segments (the `ordered` list whose displays are returned). -/
def upload (oracle : Oracle) (generated : List Segment) :
    Except PyError (List Segment) :=
  (uploadLog oracle generated).map (fun r => r.1)

/-! ## Concrete fixtures used by the witnesses and counterexamples -/

/-- Segment `A` of the spec's scenarios (the anchor). -/
def segA : Segment := ⟨0, "a"⟩

/-- Segment `B` of the spec's scenarios. -/
def segB : Segment := ⟨1, "b"⟩

/-- Segment `C` of the spec's scenarios. -/
def segC : Segment := ⟨2, "c"⟩

/-- An oracle returning `+inf` on every pair: every candidate is
incomparable (the spec's `NoSelectableCandidate` failure scenario). -/
def oracleInf : Oracle := fun _ _ => .inf

/-- An oracle returning the constant finite distance `5` on every
pair. -/
def oracleFive : Oracle := fun _ _ => .fin 5

/-- The oracle of the spec's greedy-correctness scenario:
`distance(A,B) = 5`, `distance(A,C) = 1`, `distance(C,B) = 2` (all
other pairs incomparable; they are never queried). -/
def oracleScenario : Oracle := fun x y =>
  if x = segA.tokens ∧ y = segB.tokens then .fin 5
  else if x = segA.tokens ∧ y = segC.tokens then .fin 1
  else if x = segC.tokens ∧ y = segB.tokens then .fin 2
  else .inf

/-! ## Lemmas about the inner scan -/

/-- The scan invokes the oracle exactly once per candidate, in the
candidates' order, and always as `distance(last, candidate)`: the first
argument of every logged call is the tokens of the last-placed
element. -/
theorem scanFrom_calls (oracle : Oracle) (t : List String) (l : List Segment) :
    ∀ (i : ℕ) (acc : Dist × Int),
      (scanFrom oracle t l i acc).2 = l.map (fun c => (t, c.tokens)) := by
  induction l with
  | nil => intro i acc; rfl
  | cons s rest ih => intro i acc; simp [scanFrom, ih]

/-- The `min_i` produced by the scan is `-1` or a valid zero-based index
below `i +` the number of candidates scanned. -/
theorem scanFrom_snd_bound (oracle : Oracle) (t : List String) (l : List Segment) :
    ∀ (i : ℕ) (acc : Dist × Int), (acc.2 = -1 ∨ (0 ≤ acc.2 ∧ acc.2 < (i : Int))) →
      ((scanFrom oracle t l i acc).1.2 = -1 ∨
        (0 ≤ (scanFrom oracle t l i acc).1.2 ∧
          (scanFrom oracle t l i acc).1.2 < (i : Int) + l.length)) := by
  induction l with
  | nil =>
      intro i acc h
      simpa [scanFrom] using h
  | cons s rest ih =>
      intro i acc h
      simp only [scanFrom]
      have h' : ((if (oracle t s.tokens).lt acc.1 then (oracle t s.tokens, (i : Int))
            else acc).2 = -1 ∨
          (0 ≤ (if (oracle t s.tokens).lt acc.1 then (oracle t s.tokens, (i : Int))
            else acc).2 ∧
            (if (oracle t s.tokens).lt acc.1 then (oracle t s.tokens, (i : Int))
              else acc).2 < ((i + 1 : ℕ) : Int))) := by
        rcases h with h | ⟨h0, hi⟩ <;> split <;> simp <;> omega
      have := ih (i + 1) _ h'
      rcases this with h'' | ⟨h0, hi⟩
      · exact Or.inl h''
      · refine Or.inr ⟨h0, ?_⟩
        simp only [List.length_cons]
        push_cast at hi ⊢
        omega

/-- If no candidate's distance is strictly below the accumulator's
`min_dist`, the scan returns the accumulator unchanged. -/
theorem scanFrom_fst_no_update (oracle : Oracle) (t : List String) (l : List Segment) :
    ∀ (i : ℕ) (acc : Dist × Int), (∀ s ∈ l, (oracle t s.tokens).lt acc.1 = false) →
      (scanFrom oracle t l i acc).1 = acc := by
  induction l with
  | nil => intro i acc _; rfl
  | cons s rest ih =>
      intro i acc h
      simp only [scanFrom]
      rw [if_neg (by simp [h s (List.mem_cons_self s rest)])]
      exact ih (i + 1) acc (fun x hx => h x (List.mem_cons_of_mem s hx))

/-- The Python index actually used to select and pop (`generated[min_i]`
with `min_i` from a fresh sentinel scan) is always in range when the
candidate list is non-empty. -/
theorem pyIndex_scan_lt (oracle : Oracle) (t : List String) (g : Segment)
    (gs : List Segment) :
    pyIndex (g :: gs).length
      (scanFrom oracle t (g :: gs) 0 (sentinel, -1)).1.2 < (g :: gs).length := by
  have h := scanFrom_snd_bound oracle t (g :: gs) 0 (sentinel, -1) (Or.inl rfl)
  rcases h with h | ⟨h0, hlt⟩
  · rw [h]
    simp only [pyIndex, List.length_cons]
    norm_num
  · simp only [pyIndex, List.length_cons] at *
    push_cast at hlt
    split <;> omega

/-! ## List helpers -/

/-- Selecting the element at a valid index and erasing that index is a
permutation of the original list. -/
theorem perm_getD_cons_eraseIdx (l : List Segment) (i : ℕ) (h : i < l.length)
    (d : Segment) : l.Perm (l.getD i d :: l.eraseIdx i) := by
  rw [List.getD_eq_getElem l d h, List.eraseIdx_eq_take_drop_succ]
  have hsplit : l = l.take i ++ l[i] :: l.drop (i + 1) := by
    rw [← List.drop_eq_getElem_cons h, List.take_append_drop]
  nth_rewrite 1 [hsplit]
  exact List.perm_middle

/-- Erasing the last index of a list is `dropLast`. -/
theorem eraseIdx_last_eq_dropLast (l : List Segment) :
    l.eraseIdx (l.length - 1) = l.dropLast := by
  cases l with
  | nil => rfl
  | cons g gs =>
      rw [List.eraseIdx_eq_take_drop_succ, List.dropLast_eq_take]
      have h : (g :: gs).length - 1 + 1 = (g :: gs).length := by
        simp
      rw [h, List.drop_length, List.append_nil]

/-- `getD` at the last index of a non-empty list is `getLast`. -/
theorem getD_last_eq_getLast (g : Segment) (gs : List Segment) (d : Segment) :
    (g :: gs).getD ((g :: gs).length - 1) d =
      (g :: gs).getLast (List.cons_ne_nil g gs) := by
  rw [List.getD_eq_getElem _ _ (by simp), List.getLast_eq_getElem]

/-- Python index `-1` on a list of length `n` is `n - 1`. -/
theorem pyIndex_neg_one (n : ℕ) : pyIndex n (-1) = n - 1 := by
  simp only [pyIndex]
  norm_num
  omega

/-! ## Lemmas about the chaining loop -/

/-- Permutation invariant of the `while` loop: with fuel equal to the
number of remaining candidates, the segments appended by the loop are a
permutation of the candidates. -/
theorem chainLoop_fst_perm (oracle : Oracle) :
    ∀ (n : ℕ) (l : List Segment) (last : Segment), l.length = n →
      ((chainLoop oracle n l last).1).Perm l := by
  intro n
  induction n with
  | zero =>
      intro l last h
      rw [List.length_eq_zero.mp h]
      exact List.Perm.refl _
  | succ n ih =>
      intro l last h
      match l with
      | [] => simp at h
      | g :: gs =>
        simp only [chainLoop]
        have hlt := pyIndex_scan_lt oracle last.tokens g gs
        have hlen : (((g :: gs).eraseIdx
            (pyIndex (g :: gs).length
              (scanFrom oracle last.tokens (g :: gs) 0 (sentinel, -1)).1.2)).length) = n := by
          rw [List.length_eraseIdx, if_pos hlt]
          omega
        exact ((ih _ _ hlen).cons _).trans (perm_getD_cons_eraseIdx _ _ hlt g).symm

/-- The loop performs exactly as many iterations as there are remaining
candidates. -/
theorem chainLoop_steps (oracle : Oracle) :
    ∀ (n : ℕ) (l : List Segment) (last : Segment), l.length = n →
      (chainLoop oracle n l last).2.2 = n := by
  intro n
  induction n with
  | zero => intro l last h; rfl
  | succ n ih =>
      intro l last h
      match l with
      | [] => simp at h
      | g :: gs =>
        simp only [chainLoop]
        have hlt := pyIndex_scan_lt oracle last.tokens g gs
        have hlen : (((g :: gs).eraseIdx
            (pyIndex (g :: gs).length
              (scanFrom oracle last.tokens (g :: gs) 0 (sentinel, -1)).1.2)).length) = n := by
          rw [List.length_eraseIdx, if_pos hlt]
          omega
        rw [ih _ _ hlen]

/-- Twice the number of oracle invocations made by the loop on `n`
remaining candidates is `n * (n + 1)`: each iteration scans the whole
current remaining set. -/
theorem chainLoop_calls_len (oracle : Oracle) :
    ∀ (n : ℕ) (l : List Segment) (last : Segment), l.length = n →
      2 * (chainLoop oracle n l last).2.1.length = n * (n + 1) := by
  intro n
  induction n with
  | zero => intro l last h; rfl
  | succ n ih =>
      intro l last h
      match l with
      | [] => simp at h
      | g :: gs =>
        simp only [chainLoop]
        have hlt := pyIndex_scan_lt oracle last.tokens g gs
        set idx := pyIndex (g :: gs).length
          (scanFrom oracle last.tokens (g :: gs) 0 (sentinel, -1)).1.2 with hidx
        have hlen : (((g :: gs).eraseIdx idx).length) = n := by
          rw [List.length_eraseIdx, if_pos hlt]
          omega
        rw [List.length_append, scanFrom_calls, List.length_map]
        have hrec := ih _ ((g :: gs).getD idx g) hlen
        rw [h]
        ring_nf
        ring_nf at hrec
        linarith

/-- With a constant finite distance strictly below the sentinel, the
first candidate wins the scan (`min_i = 0`): it beats the sentinel, and
no later equal distance displaces it. -/
theorem scanFrom_const_fst (c : ℚ) (hc : c < 1000000000000000) (t : List String)
    (g : Segment) (gs : List Segment) :
    (scanFrom (fun _ _ => Dist.fin c) t (g :: gs) 0 (sentinel, -1)).1 =
      (Dist.fin c, (0 : Int)) := by
  have htrue : (Dist.fin c).lt sentinel = true := by
    simpa [Dist.lt, sentinel] using hc
  simp only [scanFrom, htrue, if_true]
  exact scanFrom_fst_no_update _ _ gs 1 _ (fun s _ => by simp [Dist.lt])

/-- With a constant finite distance strictly below the sentinel, every
iteration of the loop selects the first remaining candidate, so the loop
returns the remaining candidates in their original order. -/
theorem chainLoop_const_fst (c : ℚ) (hc : c < 1000000000000000) :
    ∀ (n : ℕ) (l : List Segment) (last : Segment), l.length = n →
      (chainLoop (fun _ _ => Dist.fin c) n l last).1 = l := by
  intro n
  induction n with
  | zero =>
      intro l last h
      rw [List.length_eq_zero.mp h]
      rfl
  | succ n ih =>
      intro l last h
      match l with
      | [] => simp at h
      | g :: gs =>
        simp only [chainLoop, scanFrom_const_fst c hc]
        have hidx : pyIndex (g :: gs).length ((Dist.fin c, (0 : Int)).2) = 0 := by
          simp [pyIndex]
        rw [hidx]
        simp only [List.getD_cons_zero, List.eraseIdx_cons_zero, List.cons.injEq, true_and]
        exact ih gs g (by simpa using h)

/-! ## Definitional unfoldings of `upload` on a non-empty list -/

/-- `upload` on a non-empty list places the anchor first and appends the
loop's output. -/
theorem upload_cons (oracle : Oracle) (s : Segment) (rest : List Segment) :
    upload oracle (s :: rest) =
      .ok (s :: (chainLoop oracle rest.length rest s).1) := rfl

/-- `uploadLog` on a non-empty list: anchor first, then the loop's
output, call log and iteration count. -/
theorem uploadLog_cons (oracle : Oracle) (s : Segment) (rest : List Segment) :
    uploadLog oracle (s :: rest) =
      .ok (s :: (chainLoop oracle rest.length rest s).1,
        (chainLoop oracle rest.length rest s).2.1,
        (chainLoop oracle rest.length rest s).2.2) := rfl

/-! ## The claims -/

/-- **C1** (code-bug evaluation): with two segments and an oracle that
returns `+inf` on every pair — every candidate unselectable — the code
raises no `NoSelectableCandidate` error: `min_i` stays `-1`,
`generated[-1]` (the last candidate, `B`) is silently selected, and the
call returns the ordering `[A, B]`. -/
theorem C1_all_infinite_silent_selection :
    upload oracleInf [segA, segB] = .ok [segA, segB] := rfl

/-- **C2**: for every oracle (hence also at steps where no candidate
distance is strictly below the running minimum) and every non-empty
input, the output ordering is a permutation of the input: same length,
same multiset of segments, none duplicated or dropped. -/
theorem C2_permutation (oracle : Oracle) (s : Segment) (rest : List Segment) :
    ∃ out, upload oracle (s :: rest) = .ok out ∧ out.Perm (s :: rest) :=
  ⟨_, upload_cons oracle s rest,
    (chainLoop_fst_perm oracle rest.length rest s rfl).cons s⟩

/-- **C3**: the anchor invariant — the first element of the output is
the first input segment (so their identities agree), and the other
positions hold exactly the remaining input segments (a permutation of
`rest`), so the anchor is never reconsidered for another position. -/
theorem C3_anchor (oracle : Oracle) (s : Segment) (rest : List Segment) :
    ∃ tl, upload oracle (s :: rest) = .ok (s :: tl) ∧
      (s :: tl).headI.identity = (s :: rest).headI.identity ∧ tl.Perm rest :=
  ⟨_, upload_cons oracle s rest, rfl, chainLoop_fst_perm oracle rest.length rest s rfl⟩

/-- **C4**: singleton input — for every oracle, the ordering is `[s]`,
with an empty oracle-call log and zero chaining steps. -/
theorem C4_singleton (oracle : Oracle) (s : Segment) :
    uploadLog oracle [s] = .ok ([s], [], 0) := rfl

/-- **C5 counterexample**: an oracle returning the constant finite
distance `10^15` on every pair sends the input `[A, B, C]` to
`[A, C, B]`, not to the input order: no candidate is strictly below the
`int(1e15)` sentinel, so each step selects the LAST candidate, not the
first. -/
theorem C5_counterexample_const_at_sentinel :
    upload (fun _ _ => Dist.fin 1000000000000000) [segA, segB, segC] =
      .ok [segA, segC, segB] ∧
    [segA, segC, segB] ≠ [segA, segB, segC] := ⟨rfl, by decide⟩

/-- **C5 (amended)**: for every constant finite distance strictly below
the `int(1e15)` sentinel, the output equals the original input order: at
each chaining step the first candidate encountered wins the exact tie —
a later equal distance never displaces it. -/
theorem C5_const_below_sentinel_input_order (c : ℚ)
    (hc : c < 1000000000000000) (s : Segment) (rest : List Segment) :
    upload (fun _ _ => Dist.fin c) (s :: rest) = .ok (s :: rest) := by
  rw [upload_cons, chainLoop_const_fst c hc rest.length rest s rfl]

/-- **C5 witness**: the amended claim at the constant distance `5` on
the three scenario segments. -/
theorem C5_const_witness :
    (5 : ℚ) < 1000000000000000 ∧
      upload (fun _ _ => Dist.fin 5) [segA, segB, segC] =
        .ok [segA, segB, segC] :=
  ⟨by norm_num, C5_const_below_sentinel_input_order 5 (by norm_num) segA [segB, segC]⟩

/-- **C6**: the greedy-correctness scenario — segments `A` (anchor),
`B`, `C` with `distance(A,B) = 5`, `distance(A,C) = 1`,
`distance(C,B) = 2` produce the ordering `[A, C, B]`. -/
theorem C6_greedy_scenario :
    upload oracleScenario [segA, segB, segC] = .ok [segA, segC, segB] := rfl

/-- **C7**: oracle-call discipline — on `n ≥ 1` segments one call
performs exactly `n − 1` chaining steps and exactly `n(n−1)/2` oracle
invocations, and every chaining-step scan (over any remaining set and
scan state) invokes the oracle once per element of the current remaining
set, in that set's order, always as `distance(last, candidate)`: the
first argument of every logged invocation is the last-placed element's
tokens — the reverse direction is never evaluated. -/
theorem C7_call_discipline (oracle : Oracle) (s : Segment) (rest : List Segment) :
    (∃ ord calls steps, uploadLog oracle (s :: rest) = .ok (ord, calls, steps) ∧
      steps = (s :: rest).length - 1 ∧
      calls.length = (s :: rest).length * ((s :: rest).length - 1) / 2) ∧
    (∀ (lastTokens : List String) (remaining : List Segment) (i : ℕ)
        (acc : Dist × Int),
      (scanFrom oracle lastTokens remaining i acc).2 =
        remaining.map (fun cand => (lastTokens, cand.tokens))) := by
  constructor
  · refine ⟨_, _, _, uploadLog_cons oracle s rest, ?_, ?_⟩
    · rw [chainLoop_steps oracle rest.length rest s rfl]
      simp
    · have h2 := chainLoop_calls_len oracle rest.length rest s rfl
      simp only [List.length_cons, Nat.add_sub_cancel]
      rw [Nat.mul_comm]
      omega
  · intro lastTokens remaining i acc
    exact scanFrom_calls oracle lastTokens remaining i acc

/-- **C8** (code-bug evaluation): invoked with zero segments, the code
evaluates `generated[0]` on an empty list and fails with a bare
`IndexError` — the only failure it can signal — rather than a
distinguishable `EmptyInput` error kind. -/
theorem C8_empty_input_index_error (oracle : Oracle) :
    upload oracle [] = .error PyError.indexError := rfl

/-- **C9**: determinism — on the same non-empty input, two invocations
with oracles that agree on every pair of token sequences (i.e. the same
deterministic oracle queried twice) produce identical outputs. -/
theorem C9_determinism (o1 o2 : Oracle) (h : ∀ a b, o1 a b = o2 a b)
    (s : Segment) (rest : List Segment) :
    upload o1 (s :: rest) = upload o2 (s :: rest) := by
  have ho : o1 = o2 := funext (fun a => funext (fun b => h a b))
  rw [ho]

/-- **C9 witness**: determinism applied to the constant-`5` oracle on
`[A, B]`. -/
theorem C9_determinism_witness :
    (∀ a b, oracleFive a b = oracleFive a b) ∧
      upload oracleFive [segA, segB] = upload oracleFive [segA, segB] :=
  ⟨fun _ _ => rfl, C9_determinism oracleFive oracleFive (fun _ _ => rfl) segA [segB]⟩

/-- **C10**: the selectability threshold is the finite sentinel
`int(1e15)` under strict `<`: a finite distance `q ≥ 10^15` compares
against the sentinel exactly like `+inf` (both unselectable), and at a
chaining step where no candidate's distance is strictly below the
sentinel the loop appends the LAST element of the remaining list
(Python index `-1`) and removes it, rather than failing. -/
theorem C10_sentinel_behaviour (oracle : Oracle) (last g : Segment)
    (gs : List Segment) (n : ℕ) (q : ℚ) (hq : 1000000000000000 ≤ q)
    (h : ∀ s ∈ g :: gs, (oracle last.tokens s.tokens).lt sentinel = false) :
    Dist.lt (Dist.fin q) sentinel = Dist.lt Dist.inf sentinel ∧
    (chainLoop oracle (n + 1) (g :: gs) last).1 =
      (g :: gs).getLast (List.cons_ne_nil g gs) ::
        (chainLoop oracle n ((g :: gs).dropLast)
          ((g :: gs).getLast (List.cons_ne_nil g gs))).1 := by
  constructor
  · simp only [Dist.lt, sentinel]
    simp [not_lt.mpr hq]
  · have hscan := scanFrom_fst_no_update oracle last.tokens (g :: gs) 0 (sentinel, -1) h
    simp only [chainLoop, hscan]
    rw [pyIndex_neg_one, getD_last_eq_getLast, eraseIdx_last_eq_dropLast]

/-- **C10 witness**: the sentinel behaviour at a concrete step — the
all-`+inf` oracle, last-placed `A`, remaining `[B, C]`: the last
element `C` is selected and removed. -/
theorem C10_sentinel_witness :
    ((1000000000000000 : ℚ) ≤ 1000000000000000 ∧
      ∀ s ∈ [segB, segC], (oracleInf segA.tokens s.tokens).lt sentinel = false) ∧
    (Dist.lt (Dist.fin 1000000000000000) sentinel = Dist.lt Dist.inf sentinel ∧
      (chainLoop oracleInf (1 + 1) [segB, segC] segA).1 =
        [segB, segC].getLast (List.cons_ne_nil segB [segC]) ::
          (chainLoop oracleInf 1 ([segB, segC].dropLast)
            ([segB, segC].getLast (List.cons_ne_nil segB [segC]))).1) :=
  ⟨⟨by norm_num, by decide⟩,
    C10_sentinel_behaviour oracleInf segA segB [segC] 1 1000000000000000
      (by norm_num) (by decide)⟩

end CSOCR
